import Mathlib

/-! Shallow embedding of the speech-playback control core of the Text-to-speech
application (the App component in src/components/icons.tsx): the voice-catalog
loader (loadVoices), the utterance controller (handleSpeak / handleStop and the
utterance lifecycle callbacks), and the React state they act on. Engine
interaction is made explicit as a list of commands issued to the host
speech-synthesis engine, and the asynchronous lifecycle is modelled as an
event-driven step relation on a world that pairs the component state with
host-side session bookkeeping. -/

namespace TTS

/-- Model of the JavaScript built-in String.prototype.trim used by the guard in
handleSpeak: removes leading and trailing whitespace from a string. -/
def jsTrim (s : String) : String :=
  String.mk (((s.data.dropWhile Char.isWhitespace).reverse.dropWhile
    Char.isWhitespace).reverse)

/-- A host-platform voice (SpeechSynthesisVoice): opaque identifier, display
name and language tag. Immutable once enumerated. -/
structure Voice where
  voiceURI : String
  name : String
  lang : String
deriving DecidableEq

/-- A SpeechSynthesisUtterance value as handleSpeak constructs it: the text,
the optional voice (set only when the catalog lookup finds the selected
identifier; absence leaves the platform default in effect), pitch and rate. -/
structure Utterance where
  text : String
  voice : Option Voice
  pitch : ℚ
  rate : ℚ
deriving DecidableEq

/-- A command the controller issues to the host speech-synthesis engine:
window.speechSynthesis.cancel() or window.speechSynthesis.speak(utterance). -/
inductive EngineCmd where
  | cancel : EngineCmd
  | speak : Utterance → EngineCmd
deriving DecidableEq

/-- The React state of the App component: the useState hooks text, voices,
selectedVoiceURI, pitch, rate, isSpeaking, isLoadingVoices, plus
voicesChangedAttached, which records whether window.speechSynthesis's
onvoiceschanged slot currently holds the loadVoices handler. -/
structure AppState where
  text : String
  voices : List Voice
  selectedVoiceURI : String
  pitch : ℚ
  rate : ℚ
  isSpeaking : Bool
  isLoadingVoices : Bool
  voicesChangedAttached : Bool
deriving DecidableEq

/-- The useState initial values of the App component; the mount effect first
assigns the loadVoices handler to onvoiceschanged, modelled here by
voicesChangedAttached := true. -/
def initialApp : AppState :=
  { text := "", voices := [], selectedVoiceURI := "", pitch := 1, rate := 1,
    isSpeaking := false, isLoadingVoices := true, voicesChangedAttached := true }

/-- The default-voice computation inside loadVoices:
availableVoices.find(v => v.lang === 'en-US') || availableVoices[0], where v0
is availableVoices[0] (loadVoices only calls this when the list is non-empty). -/
def pickDefaultVoice (v0 : Voice) (availableVoices : List Voice) : Voice :=
  match availableVoices.find? (fun v => v.lang == "en-US") with
  | some v => v
  | none => v0

/-- loadVoices from the mount effect: reads the platform voice list; if it is
non-empty, publishes it as the catalog, selects a default voice (the first
en-US voice, else the first voice), clears the loading flag, and detaches the
onvoiceschanged handler; if it is empty, everything is left unchanged. -/
def loadVoices (s : AppState) (availableVoices : List Voice) : AppState :=
  match availableVoices with
  | [] => s
  | v0 :: _ =>
    { s with voices := availableVoices,
             selectedVoiceURI := (pickDefaultVoice v0 availableVoices).voiceURI,
             isLoadingVoices := false,
             voicesChangedAttached := false }

/-- handleSpeak: returns the state after the call (handleSpeak performs no
synchronous state update) together with the commands issued to the engine. The
guard returns early when the trimmed text is empty or the controller is already
speaking; otherwise it issues a cancel followed by a speak of the freshly
constructed utterance, whose voice is the catalog entry matching
selectedVoiceURI when one exists. -/
def handleSpeak (s : AppState) : AppState × List EngineCmd :=
  if jsTrim s.text == "" || s.isSpeaking then (s, [])
  else
    (s, [EngineCmd.cancel,
         EngineCmd.speak
           { text := s.text,
             voice := s.voices.find? (fun v => v.voiceURI == s.selectedVoiceURI),
             pitch := s.pitch, rate := s.rate }])

/-- handleStop: unconditionally issues cancel to the engine and synchronously
sets isSpeaking to false. -/
def handleStop (s : AppState) : AppState × List EngineCmd :=
  ({ s with isSpeaking := false }, [EngineCmd.cancel])

/-- The utterance.onstart closure: setIsSpeaking(true). -/
def onstart (s : AppState) : AppState := { s with isSpeaking := true }

/-- The utterance.onend closure: setIsSpeaking(false). -/
def onend (s : AppState) : AppState := { s with isSpeaking := false }

/-- The utterance.onerror closure: setIsSpeaking(false). -/
def onerror (s : AppState) : AppState := { s with isSpeaking := false }

/-- The textarea onChange handler: setText(e.target.value). -/
def setText (s : AppState) (t : String) : AppState := { s with text := t }

/-- The voice select onChange handler: setSelectedVoiceURI(e.target.value). -/
def setSelectedVoiceURI (s : AppState) (uri : String) : AppState :=
  { s with selectedVoiceURI := uri }

/-- The pitch slider onChange handler: setPitch(parseFloat(e.target.value)).
The handler itself performs no clamping. -/
def setPitch (s : AppState) (v : ℚ) : AppState := { s with pitch := v }

/-- The rate slider onChange handler: setRate(parseFloat(e.target.value)).
The handler itself performs no clamping. -/
def setRate (s : AppState) (v : ℚ) : AppState := { s with rate := v }

/-- The min attribute both ControlSlider instances are given in the App. -/
def sliderMin : ℚ := 0.5

/-- The max attribute both ControlSlider instances are given in the App. -/
def sliderMax : ℚ := 2

/-- The step attribute both ControlSlider instances are given in the App. -/
def sliderStep : ℚ := 0.1

/-- Kind of lifecycle callback the host engine delivers for a submitted
utterance: start, end or error. -/
inductive CbKind where
  | start : CbKind
  | endEv : CbKind
  | error : CbKind
deriving DecidableEq

/-- Host-side phase of a submitted utterance session: submitted (no callback
yet), started (start delivered, no terminal callback), done (end or error
delivered). -/
inductive Phase where
  | submitted : Phase
  | started : Phase
  | done : Phase
deriving DecidableEq

/-- An event of the single-threaded event loop: a user intent, a slider or
input change, the platform voiceschanged notification (carrying the current
platform voice list that getVoices() would return), or an engine lifecycle
callback for the session with the given identifier. -/
inductive Event where
  | speakIntent : Event
  | stopIntent : Event
  | editText : String → Event
  | selectVoice : String → Event
  | editPitch : ℚ → Event
  | editRate : ℚ → Event
  | voicesReady : List Voice → Event
  | callback : Nat → CbKind → Event
deriving DecidableEq

/-- The world: the component state plus host-side bookkeeping, namely a fresh
session counter and the phase of every utterance session submitted so far. -/
structure World where
  app : AppState
  nextId : Nat
  phases : List (Nat × Phase)
deriving DecidableEq

/-- Effect of a delivered lifecycle callback on the component state. Every
utterance is given the same three closures, so the effect does not depend on
which session the callback belongs to — the code carries no request tag. -/
def applyCallback (s : AppState) (k : CbKind) : AppState :=
  match k with
  | CbKind.start => onstart s
  | CbKind.endEv => onend s
  | CbKind.error => onerror s

/-- Host-side bookkeeping of a delivered callback: the addressed session moves
to started on a start callback and to done on a terminal one. -/
def updatePhase (ps : List (Nat × Phase)) (sid : Nat) (k : CbKind) :
    List (Nat × Phase) :=
  ps.map (fun p =>
    if p.1 = sid then
      (p.1, match k with | CbKind.start => Phase.started | _ => Phase.done)
    else p)

/-- One step of the event loop: dispatch an event to the code's handler and
record any newly submitted session on the host side. A speak intent that
results in a submission registers a fresh session in phase submitted. -/
def step (w : World) (e : Event) : World × List EngineCmd :=
  match e with
  | Event.speakIntent =>
    let r := handleSpeak w.app
    if r.2.isEmpty then ({ w with app := r.1 }, r.2)
    else ({ app := r.1, nextId := w.nextId + 1,
            phases := w.phases ++ [(w.nextId, Phase.submitted)] }, r.2)
  | Event.stopIntent =>
    let r := handleStop w.app
    ({ w with app := r.1 }, r.2)
  | Event.editText t => ({ w with app := setText w.app t }, [])
  | Event.selectVoice uri => ({ w with app := setSelectedVoiceURI w.app uri }, [])
  | Event.editPitch v => ({ w with app := setPitch w.app v }, [])
  | Event.editRate v => ({ w with app := setRate w.app v }, [])
  | Event.voicesReady avail =>
    if w.app.voicesChangedAttached then ({ w with app := loadVoices w.app avail }, [])
    else (w, [])
  | Event.callback sid k =>
    ({ w with app := applyCallback w.app k, phases := updatePhase w.phases sid k }, [])

/-- Run a sequence of events from a world, discarding the emitted commands. -/
def runTrace (w : World) : List Event → World
  | [] => w
  | e :: es => runTrace (step w e).1 es

/-- UI deliverability of an event. The voice select element renders exactly one
option per catalog voice and is disabled while the catalog is empty, so a
change event on it can only carry the voiceURI of a catalog entry; every other
event may carry an arbitrary payload. -/
def validEvent (s : AppState) : Event → Bool
  | Event.selectVoice uri => decide (uri ∈ s.voices.map (fun v => v.voiceURI))
  | _ => true

/-- A sequence of events each of which is UI-deliverable in the world it is
delivered in. -/
inductive ValidFrom : World → List Event → Prop where
  | nil (w : World) : ValidFrom w []
  | cons (w : World) (e : Event) (es : List Event)
      (hv : validEvent w.app e = true)
      (hrest : ValidFrom (step w e).1 es) : ValidFrom w (e :: es)

/-- The selected-voice invariant of the data model: whenever the catalog is
non-empty, the selected identifier names a catalog entry. -/
def selectionInv (s : AppState) : Prop :=
  s.voices ≠ [] → s.selectedVoiceURI ∈ s.voices.map (fun v => v.voiceURI)

/-- Spec-side restatement of the default-selection rule, for comparison with
the code in claim C8: the first voice whose language tag equals the preferred
locale en-US when one exists, otherwise the first voice in platform order. -/
def specDefaultVoice (availableVoices : List Voice) : Option Voice :=
  match availableVoices.filter (fun v => v.lang == "en-US") with
  | v :: _ => some v
  | [] => availableVoices.head?

/-- The en-US voice of the spec's catalog scenario. -/
def vUS : Voice := { voiceURI := "v1", name := "VoiceOne", lang := "en-US" }

/-- The fr-FR voice of the spec's catalog scenario. -/
def vFR : Voice := { voiceURI := "v2", name := "VoiceTwo", lang := "fr-FR" }

/-- An idle state with the scenario catalog loaded, text entered and the
default pitch and rate. -/
def demoIdle : AppState :=
  { text := "hello", voices := [vUS, vFR], selectedVoiceURI := "v1",
    pitch := 1, rate := 1, isSpeaking := false, isLoadingVoices := false,
    voicesChangedAttached := false }

/-- The world at mount time, before any event has been delivered. -/
def world0 : World := { app := initialApp, nextId := 0, phases := [] }

/-! Helper lemmas shared by the claim theorems. -/

/-- handleSpeak performs no synchronous state update: both the guarded early
return and the submitting branch leave the component state untouched. -/
theorem handleSpeak_fst (s : AppState) : (handleSpeak s).1 = s := by
  unfold handleSpeak
  split
  · rfl
  · rfl

/-- The early return of handleSpeak: when the trimmed text is empty or the
controller is already speaking, nothing happens and no command is issued. -/
theorem handleSpeak_guard_eq (s : AppState)
    (h : jsTrim s.text = "" ∨ s.isSpeaking = true) : handleSpeak s = (s, []) := by
  unfold handleSpeak
  rcases h with h | h
  · simp [h]
  · simp [h]

/-- The submitting branch of handleSpeak: with non-blank text and the
controller idle, it issues exactly a cancel followed by a speak of the
utterance built from the current text, catalog lookup, pitch and rate. -/
theorem handleSpeak_submit (s : AppState)
    (htext : jsTrim s.text ≠ "") (hidle : s.isSpeaking = false) :
    handleSpeak s =
      (s, [EngineCmd.cancel,
           EngineCmd.speak
             { text := s.text,
               voice := s.voices.find? (fun v => v.voiceURI == s.selectedVoiceURI),
               pitch := s.pitch, rate := s.rate }]) := by
  unfold handleSpeak
  have hbeq : (jsTrim s.text == "") = false := beq_eq_false_iff_ne.mpr htext
  simp [hbeq, hidle]

/-- The default voice picked inside loadVoices is a member of the voice list,
provided the fallback voice is. -/
theorem pickDefaultVoice_mem (v0 : Voice) (l : List Voice) (h : v0 ∈ l) :
    pickDefaultVoice v0 l ∈ l := by
  unfold pickDefaultVoice
  cases hf : l.find? (fun v => v.lang == "en-US") with
  | none => exact h
  | some v => exact List.mem_of_find?_eq_some hf

/-- loadVoices preserves the selected-voice invariant: an empty platform list
changes nothing, and a non-empty one installs a selection taken from the newly
published catalog itself. -/
theorem selectionInv_loadVoices (s : AppState) (avail : List Voice)
    (h : selectionInv s) : selectionInv (loadVoices s avail) := by
  cases avail with
  | nil => exact h
  | cons v0 t =>
    intro _
    exact List.mem_map_of_mem _
      (pickDefaultVoice_mem v0 (v0 :: t) (List.mem_cons_self v0 t))

/-- loadVoices never raises the loading flag: it either leaves it alone or
clears it. -/
theorem loadVoices_isLoadingVoices (s : AppState) (avail : List Voice)
    (h : s.isLoadingVoices = false) :
    (loadVoices s avail).isLoadingVoices = false := by
  cases avail with
  | nil => exact h
  | cons v0 t => rfl

/-- One event-loop step preserves the selected-voice invariant (for
UI-deliverable events) and never raises the loading flag once it is down. -/
theorem step_preserves (w : World) (e : Event)
    (hInv : selectionInv w.app) (hv : validEvent w.app e = true) :
    selectionInv (step w e).1.app ∧
    (w.app.isLoadingVoices = false → (step w e).1.app.isLoadingVoices = false) := by
  cases e with
  | speakIntent =>
    have happ : (step w Event.speakIntent).1.app = w.app := by
      simp only [step]
      split
      · exact handleSpeak_fst w.app
      · exact handleSpeak_fst w.app
    rw [happ]
    exact ⟨hInv, fun h => h⟩
  | stopIntent => exact ⟨hInv, fun h => h⟩
  | editText t => exact ⟨hInv, fun h => h⟩
  | selectVoice uri => exact ⟨fun _ => of_decide_eq_true hv, fun h => h⟩
  | editPitch v => exact ⟨hInv, fun h => h⟩
  | editRate v => exact ⟨hInv, fun h => h⟩
  | voicesReady avail =>
    constructor
    · show selectionInv (step w (Event.voicesReady avail)).1.app
      simp only [step]
      split
      · exact selectionInv_loadVoices w.app avail hInv
      · exact hInv
    · intro h
      show (step w (Event.voicesReady avail)).1.app.isLoadingVoices = false
      simp only [step]
      split
      · exact loadVoices_isLoadingVoices w.app avail h
      · exact h
  | callback sid k =>
    cases k with
    | start => exact ⟨hInv, fun h => h⟩
    | endEv => exact ⟨hInv, fun h => h⟩
    | error => exact ⟨hInv, fun h => h⟩

/-- Trace-level preservation: along any UI-deliverable event sequence the
selected-voice invariant is maintained and the loading flag, once false, stays
false. -/
theorem runTrace_preserves (es : List Event) : ∀ w : World,
    selectionInv w.app → ValidFrom w es →
    selectionInv (runTrace w es).app ∧
    (w.app.isLoadingVoices = false →
      (runTrace w es).app.isLoadingVoices = false) := by
  induction es with
  | nil =>
    intro w hInv _
    exact ⟨hInv, fun h => h⟩
  | cons e es ih =>
    intro w hInv hval
    cases hval with
    | cons _ _ _ hv hrest =>
      have hstep := step_preserves w e hInv hv
      have hres := ih (step w e).1 hstep.1 hrest
      exact ⟨hres.1, fun h => hres.2 (hstep.2 h)⟩

/-- List.find? returns the head of the filtered list. -/
theorem find?_eq_head?_filter (p : Voice → Bool) (l : List Voice) :
    l.find? p = (l.filter p).head? := by
  induction l with
  | nil => rfl
  | cons a t ih =>
    cases h : p a with
    | true =>
      rw [List.find?_cons_of_pos _ h, List.filter_cons_of_pos h]
      rfl
    | false =>
      have hne : ¬ p a = true := by simp [h]
      rw [List.find?_cons_of_neg _ hne, List.filter_cons_of_neg hne, ih]

/-! The claim theorems. -/

/-- Claim C1: a speak intent whose text is empty or whitespace-only, or which
arrives while the controller is already Speaking, is a complete no-op: the
component state with all its parameters and the host-side session bookkeeping
are unchanged and no engine command is issued. -/
theorem speak_guard_noop (w : World)
    (h : jsTrim w.app.text = "" ∨ w.app.isSpeaking = true) :
    step w Event.speakIntent = (w, []) := by
  have hg := handleSpeak_guard_eq w.app h
  simp only [step, hg]
  rfl

/-- A ready world whose entered text is whitespace-only. -/
def c1world : World :=
  { app := { demoIdle with text := "   " }, nextId := 0, phases := [] }

/-- Witness for claim C1 at a concrete whitespace-only input. -/
theorem speak_guard_noop_witness :
    step c1world Event.speakIntent = (c1world, []) :=
  speak_guard_noop c1world (Or.inl (by decide))

/-- Claim C2: a speak intent from Idle with non-blank text issues exactly one
cancel followed by one speak submission, and the submitted utterance carries
the current text, the voice resolved by looking the selected identifier up in
the catalog, and the current pitch and rate. -/
theorem speak_submits_request (s : AppState)
    (htext : jsTrim s.text ≠ "") (hidle : s.isSpeaking = false) :
    handleSpeak s =
      (s, [EngineCmd.cancel,
           EngineCmd.speak
             { text := s.text,
               voice := s.voices.find? (fun v => v.voiceURI == s.selectedVoiceURI),
               pitch := s.pitch, rate := s.rate }]) :=
  handleSpeak_submit s htext hidle

/-- Witness for claim C2 at the spec's concrete scenario: text hello, catalog
[vUS, vFR], selected voice v1, pitch 1, rate 1. -/
theorem speak_submits_request_witness :
    jsTrim demoIdle.text ≠ "" ∧ demoIdle.isSpeaking = false ∧
    handleSpeak demoIdle =
      (demoIdle,
       [EngineCmd.cancel,
        EngineCmd.speak
          { text := demoIdle.text,
            voice := demoIdle.voices.find?
              (fun v => v.voiceURI == demoIdle.selectedVoiceURI),
            pitch := demoIdle.pitch, rate := demoIdle.rate }]) :=
  ⟨by decide, rfl, speak_submits_request demoIdle (by decide) rfl⟩

/-- Claim C3: the speak call performs no synchronous transition of the
playback flag — the state it returns is exactly the state it was called in, so
a call made while Idle leaves the state Idle — and the flag becomes Speaking
precisely through the engine-delivered start callback. -/
theorem speak_not_synchronous (s : AppState) :
    (handleSpeak s).1 = s ∧ (applyCallback s CbKind.start).isSpeaking = true :=
  ⟨handleSpeak_fst s, rfl⟩

/-- Claim C4: stop while Speaking synchronously sets the playback flag to Idle
within the call itself, with no engine callback involved, changes no other
state component, and issues exactly one cancel to the host engine. -/
theorem stop_while_speaking (s : AppState) (_h : s.isSpeaking = true) :
    handleStop s = ({ s with isSpeaking := false }, [EngineCmd.cancel]) := rfl

/-- A Speaking state over the scenario catalog. -/
def demoSpeaking : AppState := { demoIdle with isSpeaking := true }

/-- Witness for claim C4 at a concrete Speaking state. -/
theorem stop_while_speaking_witness :
    demoSpeaking.isSpeaking = true ∧
    handleStop demoSpeaking =
      ({ demoSpeaking with isSpeaking := false }, [EngineCmd.cancel]) :=
  ⟨rfl, stop_while_speaking demoSpeaking rfl⟩

/-- Counterexample to claim C5: handleStop called while Idle does issue an
engine command — its cancel is unconditional — so the claim that no command is
issued to the host engine in that case is false on the code. -/
theorem stop_while_idle_issues_cancel :
    demoIdle.isSpeaking = false ∧ (handleStop demoIdle).2 ≠ [] := by
  decide

/-- Claim C5 amended: stop while Idle leaves every component of the controller
state unchanged (the playback flag is rewritten to the false it already
holds), but it still issues exactly one — harmless — cancel command to the
host engine, because the cancel in handleStop is unconditional. -/
theorem stop_while_idle (s : AppState) (h : s.isSpeaking = false) :
    (handleStop s).1 = s ∧ (handleStop s).2 = [EngineCmd.cancel] := by
  constructor
  · cases s with
    | mk t v sel p r sp lo att =>
      cases sp with
      | false => rfl
      | true => simp at h
  · rfl

/-- Witness for the amended claim C5 at a concrete Idle state. -/
theorem stop_while_idle_witness :
    (handleStop demoIdle).1 = demoIdle ∧
    (handleStop demoIdle).2 = [EngineCmd.cancel] :=
  stop_while_idle demoIdle rfl

/-- The superseding-request scenario of claim C6: the catalog loads, text is
entered and spoken (session 0), new text is entered and spoken again before
any callback of session 0 has arrived (session 1), session 1 starts, and only
then the late end callback of the superseded session 0 is delivered. -/
def c6trace : List Event :=
  [Event.voicesReady [vUS, vFR],
   Event.editText "first",
   Event.speakIntent,
   Event.editText "second",
   Event.speakIntent,
   Event.callback 1 CbKind.start,
   Event.callback 0 CbKind.endEv]

/-- Claim C6 fails on the code: the utterance callbacks carry no request tag,
so the stale end callback of superseded session 0, delivered after the newer
session 1 has started, resets the playback flag to Idle even though session 1
is still in flight — its phase is still started, no terminal callback for it
was ever delivered. -/
theorem stale_end_forces_idle :
    (runTrace world0 c6trace).app.isSpeaking = false ∧
    (runTrace world0 c6trace).phases = [(0, Phase.done), (1, Phase.started)] := by
  decide

/-- Claim C7: along every UI-deliverable sequence of loader and controller
events, the selected-voice invariant — whenever the catalog is non-empty the
selected identifier names a catalog entry — is preserved, and once the catalog
loading flag is false it never becomes true again. -/
theorem loader_invariants (w : World) (es : List Event)
    (hInv : selectionInv w.app) (hval : ValidFrom w es) :
    selectionInv (runTrace w es).app ∧
    (w.app.isLoadingVoices = false →
      (runTrace w es).app.isLoadingVoices = false) :=
  runTrace_preserves es w hInv hval

/-- A world whose catalog has just been loaded from the scenario voice list. -/
def c7world : World :=
  { app := loadVoices initialApp [vUS, vFR], nextId := 0, phases := [] }

/-- A concrete UI-deliverable event sequence: select the fr-FR voice, then
press stop. -/
def c7events : List Event := [Event.selectVoice "v2", Event.stopIntent]

/-- Witness for claim C7 at a concrete loaded world and event sequence. -/
theorem loader_invariants_witness :
    selectionInv (runTrace c7world c7events).app ∧
    (c7world.app.isLoadingVoices = false →
      (runTrace c7world c7events).app.isLoadingVoices = false) :=
  loader_invariants c7world c7events (fun _ => by decide)
    (ValidFrom.cons _ _ _ (by decide)
      (ValidFrom.cons _ _ _ (by decide) (ValidFrom.nil _)))

/-- Claim C8: for every non-empty platform voice list, the default selection
published by loadVoices is the voice the spec describes — specDefaultVoice:
the first voice whose language tag is en-US when one exists, else the first
voice in platform order — and in the spec's concrete scenario [vUS, vFR] the
selection resolves to v1. -/
theorem default_selection (s : AppState) (avail : List Voice)
    (h : avail ≠ []) :
    (∃ v : Voice, specDefaultVoice avail = some v ∧
       (loadVoices s avail).selectedVoiceURI = v.voiceURI) ∧
    (loadVoices s [vUS, vFR]).selectedVoiceURI = "v1" := by
  constructor
  · cases avail with
    | nil => exact absurd rfl h
    | cons v0 t =>
      show ∃ v : Voice, specDefaultVoice (v0 :: t) = some v ∧
        (pickDefaultVoice v0 (v0 :: t)).voiceURI = v.voiceURI
      unfold specDefaultVoice pickDefaultVoice
      rw [find?_eq_head?_filter]
      cases hf : (v0 :: t).filter (fun v => v.lang == "en-US") with
      | nil => exact ⟨v0, rfl, rfl⟩
      | cons u us => exact ⟨u, rfl, rfl⟩
  · rfl

/-- Witness for claim C8 at the spec's concrete two-voice catalog. -/
theorem default_selection_witness :
    (([vUS, vFR] : List Voice) ≠ []) ∧
    ((∃ v : Voice, specDefaultVoice [vUS, vFR] = some v ∧
        (loadVoices initialApp [vUS, vFR]).selectedVoiceURI = v.voiceURI) ∧
     (loadVoices initialApp [vUS, vFR]).selectedVoiceURI = "v1") :=
  ⟨by decide, default_selection initialApp [vUS, vFR] (by decide)⟩

/-- Counterexample to claim C9: supplying 0.3 to the pitch handler stores 0.3
itself — the state does change and the stored value lies outside [0.5, 2.0] —
so out-of-range values are neither rejected nor clamped by the operation. -/
theorem out_of_range_pitch_stored :
    (setPitch demoIdle (3/10)).pitch = 3 / 10 ∧
    ¬ sliderMin ≤ (setPitch demoIdle (3/10)).pitch := by
  constructor
  · rfl
  · show ¬ (0.5 : ℚ) ≤ 3/10
    norm_num

/-- Claim C9 amended: the pitch and rate handlers store the supplied value
unchanged, performing no clamping or rejection of their own; the range
[sliderMin, sliderMax] = [0.5, 2.0] is enforced solely by the slider element's
min and max attributes, so for every value the slider can deliver, the stored
pitch and rate lie within that range. -/
theorem pitch_rate_in_range (s : AppState) (v : ℚ)
    (h1 : sliderMin ≤ v) (h2 : v ≤ sliderMax) :
    ((setPitch s v).pitch = v ∧ sliderMin ≤ (setPitch s v).pitch ∧
      (setPitch s v).pitch ≤ sliderMax) ∧
    ((setRate s v).rate = v ∧ sliderMin ≤ (setRate s v).rate ∧
      (setRate s v).rate ≤ sliderMax) :=
  ⟨⟨rfl, h1, h2⟩, ⟨rfl, h1, h2⟩⟩

/-- Witness for the amended claim C9 at the in-range value 1. -/
theorem pitch_rate_in_range_witness :
    (sliderMin ≤ (1 : ℚ)) ∧ ((1 : ℚ) ≤ sliderMax) ∧
    (((setPitch demoIdle 1).pitch = 1 ∧ sliderMin ≤ (setPitch demoIdle 1).pitch ∧
       (setPitch demoIdle 1).pitch ≤ sliderMax) ∧
     ((setRate demoIdle 1).rate = 1 ∧ sliderMin ≤ (setRate demoIdle 1).rate ∧
       (setRate demoIdle 1).rate ≤ sliderMax)) :=
  ⟨by norm_num [sliderMin], by norm_num [sliderMax],
   pitch_rate_in_range demoIdle 1 (by norm_num [sliderMin])
     (by norm_num [sliderMax])⟩

/-- Claim C10: with non-blank text from Idle, when the selected identifier
matches no catalog voice — including when the catalog is empty — the request
is still submitted after the cancel, with no voice set, leaving the platform
default voice in effect, and with the current pitch and rate; speak neither
fails nor becomes a no-op. -/
theorem speak_unknown_voice (s : AppState)
    (htext : jsTrim s.text ≠ "") (hidle : s.isSpeaking = false)
    (hmiss : s.voices.find? (fun v => v.voiceURI == s.selectedVoiceURI) = none) :
    handleSpeak s =
      (s, [EngineCmd.cancel,
           EngineCmd.speak
             { text := s.text, voice := none,
               pitch := s.pitch, rate := s.rate }]) := by
  rw [handleSpeak_submit s htext hidle, hmiss]

/-- A state with text entered but an empty catalog and a dangling selection. -/
def ghostState : AppState :=
  { initialApp with text := "hello", selectedVoiceURI := "ghost" }

/-- Witness for claim C10 at a concrete state whose selection matches nothing. -/
theorem speak_unknown_voice_witness :
    jsTrim ghostState.text ≠ "" ∧ ghostState.isSpeaking = false ∧
    ghostState.voices.find?
      (fun v => v.voiceURI == ghostState.selectedVoiceURI) = none ∧
    handleSpeak ghostState =
      (ghostState,
       [EngineCmd.cancel,
        EngineCmd.speak
          { text := ghostState.text, voice := none,
            pitch := ghostState.pitch, rate := ghostState.rate }]) :=
  ⟨by decide, rfl, rfl, speak_unknown_voice ghostState (by decide) rfl rfl⟩

end TTS
